import Mathlib

set_option autoImplicit false

/-!
Verification of the GitHub upgrade provider (src/lib/github_provider.ts and
src/lib/github_upgrade_command.ts): a shallow embedding of the version
fetching, outdatedness decision, error handling, table layout and the
upgrade command action, followed by theorems about each behaviour.

Modelling conventions:
* values of type `string | undefined` become `Option String`; JS truthiness
  of such a value (`undefined` and `""` are falsy) is the `truthy` predicate;
* the console styling helpers `bold` and `green` are external collaborators
  and are modelled as the identity on text content;
* the stable `Array.prototype.sort` with the comparator
  `(a, b) => a.protected === b.protected ? 0 : a.protected ? 1 : -1`
  keeps unprotected branches (in order) before protected ones (in order),
  which is exactly the partition by protection status;
* network effects are split off: `gitFetch` is a pure function of the HTTP
  status and decoded body, and `getVersions` is a pure function of the two
  decoded API responses.
-/

namespace GithubUpgrade

/-- Console bold styling helper (an external collaborator); modelled as the
identity on text content. -/
def bold (s : String) : String := s

/-- Console green styling helper (an external collaborator); modelled as the
identity on text content. -/
def green (s : String) : String := s

/-- JS truthiness of a `string | undefined` value: `undefined` and the empty
string are falsy, every other string is truthy. -/
def truthy : Option String → Bool
  | none => false
  | some s => s != ""

/-- A tag ref as returned by `GET .../git/refs/tags`: `{ ref: string }`. -/
structure TagRef where
  ref : String
deriving Repr, DecidableEq

/-- A branch as returned by `GET .../branches`: `{ name, protected }`.
The field `protected` is a Lean keyword, hence the underscore. -/
structure Branch where
  name : String
  protected_ : Bool
deriving Repr, DecidableEq

/-- The `GithubVersions` record returned by `getVersions`. The source
declares `latest: string`, but `tagNames[0]` is `undefined` on an empty
tag list, so the faithful type of `latest` is `Option String`. -/
structure GithubVersions where
  latest : Option String
  versions : List String
  tags : List String
  branches : List String
deriving Repr, DecidableEq

/-- The ten characters of the fixed reference path `refs/tags/`. -/
def tagsPathChars : List Char := ("refs/tags/").data

/-- Tag name normalisation, `tag.ref.replace` with the anchored regex for
`refs/tags/`: removes one leading occurrence of `refs/tags/` when present
and leaves the string unchanged otherwise; modelled on the character list
of the string. -/
def stripTagsPath (s : String) : String :=
  if s.data.take 10 = tagsPathChars then String.mk (s.data.drop 10) else s

/-- The tag pipeline of `getVersions`:
`tags.map((tag) => tag.ref.replace(/^refs\/tags\//, "")).reverse()`. -/
def tagNames (tags : List TagRef) : List String :=
  (tags.map (fun t => stripTagsPath t.ref)).reverse

/-- The display entry built for one branch by the template literal in the
branch pipeline: the branch name, then a space, then `(Protected)` (with
`Protected` in bold) when the branch is protected and the empty string
otherwise. Note the unconditional space after the name. -/
def branchEntry (b : Branch) : String :=
  b.name ++ " " ++ (if b.protected_ then "(" ++ bold ("Protected") ++ ")" else "")

/-- The stable sort of `getVersions`:
`.sort((a, b) => (a.protected === b.protected) ? 0 : (a.protected ? 1 : -1))`.
A stable sort under this comparator keeps the unprotected branches (in their
original order) before the protected ones (in their original order). -/
def sortBranches (bs : List Branch) : List Branch :=
  bs.filter (fun b => !b.protected_) ++ bs.filter (fun b => b.protected_)

/-- The branch pipeline of `getVersions`: sort, annotate, reverse. -/
def branchNames (bs : List Branch) : List String :=
  ((sortBranches bs).map branchEntry).reverse

/-- The `getVersions` method as a pure function of the two decoded API
responses. -/
def getVersions (tags : List TagRef) (bs : List Branch) : GithubVersions :=
  { versions := tagNames tags ++ branchNames bs
    latest := (tagNames tags).head?
    tags := tagNames tags
    branches := branchNames bs }

/-- Resolution of the target version at the top of `isOutdated`:
`if (targetVersion === "latest") targetVersion = latest`. After this
assignment the variable may hold `undefined`, hence the `Option`. -/
def resolveTarget (latest : Option String) (targetVersion : String) : Option String :=
  if targetVersion = "latest" then latest else some targetVersion

/-- Membership test `versions.includes` applied to a possibly-`undefined`
target; an `undefined` target is never a member of a list of strings. -/
def optMem (t : Option String) (vs : List String) : Bool :=
  match t with
  | none => false
  | some s => vs.contains s

/-- Outcome of `isOutdated`: either `throw new ValidationError(...)` or a
returned boolean. -/
inductive IsOutdatedResult where
  | validationError
  | ok (outdated : Bool)
deriving Repr, DecidableEq

/-- The decision logic of `isOutdated`, given the already-fetched `latest`
and `versions`. Follows the source line by line: resolve `"latest"`,
throw `ValidationError` when the (truthy) resolved target is missing from
`versions`, return `false` on the two already-installed checks, else
return `true`. -/
def isOutdated (latest : Option String) (versions : List String)
    (currentVersion targetVersion : String) : IsOutdatedResult :=
  let target := resolveTarget latest targetVersion
  if truthy target && !(optMem target versions) then
    IsOutdatedResult.validationError
  else if truthy latest && (latest == some currentVersion) && (latest == target) then
    IsOutdatedResult.ok false
  else if truthy target && (target == some currentVersion) then
    IsOutdatedResult.ok false
  else
    IsOutdatedResult.ok true

/-- The full `isOutdated` method, composed with `getVersions` on decoded
API responses. -/
def isOutdatedFromApi (tags : List TagRef) (bs : List Branch)
    (currentVersion targetVersion : String) : IsOutdatedResult :=
  let v := getVersions tags bs
  isOutdated v.latest v.versions currentVersion targetVersion

/-- Error classes thrown by the provider: `gitFetch` throws the generic
`Error` class at both of its throw sites, while `isOutdated` throws the
distinct `ValidationError` class. -/
inductive ErrClass where
  | genericError
  | validationError
deriving Repr, DecidableEq

/-- A thrown JS error: its class and its message. -/
structure ThrownError where
  cls : ErrClass
  msg : String
deriving Repr, DecidableEq

/-- Decoded body of a `gitFetch` response: either the expected payload, or
a structured error payload, detected in the source by the presence of both
a `message` and a `documentation_url` field. -/
inductive GitBody (T : Type) where
  | payload (t : T)
  | errorPayload (message documentationUrl : String)
deriving Repr, DecidableEq

/-- Outcome of an awaited provider call: a thrown error or a value. -/
inductive FetchOutcome (T : Type) where
  | thrown (e : ThrownError)
  | value (t : T)
deriving Repr, DecidableEq

/-- The apostrophe character, spelled by code point. -/
def apos : String := String.mk [Char.ofNat 39]

/-- The fixed message of the no-status throw in `gitFetch`. -/
def fetchFailMsg : String :=
  "couldn" ++ apos ++ "t fetch versions - try again after sometime"

/-- The `gitFetch` method as a pure function of the HTTP status (`0` models
a falsy `response.status`) and the decoded body: throws the generic `Error`
with a fixed message when there is no status, throws the generic `Error`
carrying `message + " " + documentation_url` on a structured error payload,
and returns the payload otherwise. -/
def gitFetch (T : Type) (status : Nat) (body : GitBody T) : FetchOutcome T :=
  if status = 0 then
    FetchOutcome.thrown ⟨ErrClass.genericError, fetchFailMsg⟩
  else
    match body with
    | GitBody.errorPayload m d =>
        FetchOutcome.thrown ⟨ErrClass.genericError, m ++ " " ++ d⟩
    | GitBody.payload t => FetchOutcome.value t

/-- The fetching half of `getVersions`: both endpoint calls are awaited
jointly and the whole call fails when either fetch throws. -/
def getVersionsFetch (tagStatus : Nat) (tagBody : GitBody (List TagRef))
    (branchStatus : Nat) (branchBody : GitBody (List Branch)) :
    FetchOutcome GithubVersions :=
  match gitFetch (List TagRef) tagStatus tagBody,
        gitFetch (List Branch) branchStatus branchBody with
  | FetchOutcome.thrown e, _ => FetchOutcome.thrown e
  | _, FetchOutcome.thrown e => FetchOutcome.thrown e
  | FetchOutcome.value tags, FetchOutcome.value bs =>
      FetchOutcome.value (getVersions tags bs)

/-- The marking pass of `printVersions`: the entry equal to a truthy
`currentVersion` gets a green `* ` marker, every other entry a two-space
blank marker of the same width. -/
def markVersions (versions : List String) (currentVersion : Option String) :
    List String :=
  versions.map (fun v =>
    if truthy currentVersion && (currentVersion == some v) then
      green ("* " ++ v)
    else "  " ++ v)

/-- Number of table rows: `Math.ceil(versions.length / maxCols)`, as exact
natural-number ceiling division (meaningful for positive `maxCols`). -/
def rowSize (count maxCols : Nat) : Nat := (count + maxCols - 1) / maxCols

/-- Number of table columns: `Math.min(versions.length, maxCols)`. -/
def colSize (count maxCols : Nat) : Nat := min count maxCols

/-- Cell content written by the column-major fill loop: the cell at row `r`
and column `c` receives entry number `c * rowSize + r`, and `none` (JS
`undefined`) when that index runs past the entry list. -/
def layoutCell (entries : List String) (maxCols r c : Nat) : Option String :=
  entries.get? (c * rowSize entries.length maxCols + r)

/-- The grid built by the column-major fill loop of `printVersions`:
`rowSize` rows of `colSize` cells. -/
def layoutTable (entries : List String) (maxCols : Nat) :
    List (List (Option String)) :=
  (List.range (rowSize entries.length maxCols)).map (fun r =>
    (List.range (colSize entries.length maxCols)).map (fun c =>
      layoutCell entries maxCols r c))

/-- Cell lookup in a rendered grid: row `r`, column `c`, `none` when the
coordinates fall outside the grid. -/
def tableCell (t : List (List (Option String))) (r c : Nat) :
    Option (Option String) :=
  (t.get? r).bind (fun row => row.get? c)

/-- A left indent of `n` spaces. -/
def indentStr (n : Nat) : String := String.mk (List.replicate n ' ')

/-- What `printVersions` writes: nothing for an empty list, one indented
line per entry up to the 25-entry threshold, and the column-major table
beyond it. -/
inductive PrintLayout where
  | perLine (lines : List String)
  | table (rows : List (List (Option String)))
deriving Repr, DecidableEq

/-- The `maxListSize` threshold of the provider. -/
def maxListSize : Nat := 25

/-- The `printVersions` method as a pure function: marks the current
version, then either prints one entry per line or lays the marked entries
out in the column-major grid when there are more than `maxListSize`. -/
def printVersions (versions : List String) (currentVersion : Option String)
    (maxCols indent : Nat) : Option PrintLayout :=
  if versions.length = 0 then none
  else
    let marked := markVersions versions currentVersion
    if marked.length > maxListSize then
      some (PrintLayout.table (layoutTable marked maxCols))
    else
      some (PrintLayout.perLine (marked.map (fun v => indentStr indent ++ v)))

/-- Observable behaviour of the upgrade command action: whether
`isOutdated` was consulted and whether `upgrade` was invoked. -/
structure ActionResult where
  isOutdatedCalled : Bool
  upgradeCalled : Bool
deriving Repr, DecidableEq

/-- The upgrade command action body:
`if (force || !currentVersion || await isOutdated(...)) upgrade(...)`,
with JS short-circuit evaluation and truthiness on `currentVersion`
(`undefined` and the empty string are falsy). A thrown `ValidationError`
from `isOutdated` propagates, so `upgrade` is not invoked then. -/
def upgradeAction (force : Bool) (currentVersion : Option String)
    (outdatedResult : IsOutdatedResult) : ActionResult :=
  if force then ⟨false, true⟩
  else if !(truthy currentVersion) then ⟨false, true⟩
  else
    match outdatedResult with
    | IsOutdatedResult.validationError => ⟨true, false⟩
    | IsOutdatedResult.ok b => ⟨true, b⟩

/-! ## Helper lemmas -/

/-- The two shapes a branch display entry can take, protected case. -/
theorem branchEntry_protected (b : Branch) (hb : b.protected_ = true) :
    branchEntry b = b.name ++ " (Protected)" := by
  have h1 : (" " ++ ("(" ++ bold ("Protected") ++ ")") : String) = " (Protected)" := rfl
  rw [branchEntry, if_pos hb, String.append_assoc, h1]

/-- The two shapes a branch display entry can take, unprotected case: the
name always carries a trailing space. -/
theorem branchEntry_unprotected (b : Branch) (hb : b.protected_ = false) :
    branchEntry b = b.name ++ " " := by
  have hb2 : ¬(b.protected_ = true) := by simp [hb]
  rw [branchEntry, if_neg hb2, String.append_empty]

/-- Every branch display entry ends in a space (unprotected) or a closing
parenthesis (protected). -/
theorem branchEntry_last (b : Branch) :
    (branchEntry b).data.getLast? = some ' ' ∨
      (branchEntry b).data.getLast? = some ')' := by
  by_cases hb : b.protected_ = true
  · right
    rw [branchEntry_protected b hb, String.data_append,
      List.getLast?_append_of_ne_nil _ (by decide)]
    decide
  · left
    rw [branchEntry_unprotected b (by simpa using hb), String.data_append,
      List.getLast?_append_of_ne_nil _ (by decide)]
    decide

/-- A string whose last character is neither a space nor a closing
parenthesis is never one of the branch display entries. -/
theorem bare_name_not_mem_branchNames (bs : List Branch) (s : String)
    (hsp : s.data.getLast? ≠ some ' ') (hpa : s.data.getLast? ≠ some ')') :
    s ∉ branchNames bs := by
  intro hmem
  rw [branchNames, List.mem_reverse, List.mem_map] at hmem
  obtain ⟨b, _, hbe⟩ := hmem
  rcases branchEntry_last b with h | h
  · exact hsp (hbe ▸ h)
  · exact hpa (hbe ▸ h)

/-- The grid never runs out of cells: `count ≤ maxCols * rowSize`. -/
theorem le_mul_rowSize (n m : Nat) (hm : 0 < m) : n ≤ m * rowSize n m := by
  have h1 := Nat.div_add_mod (n + m - 1) m
  have h2 : (n + m - 1) % m < m := Nat.mod_lt _ hm
  unfold rowSize
  omega

/-- A non-empty entry list gives at least one row. -/
theorem rowSize_pos (n m : Nat) (hn : 0 < n) (hm : 0 < m) : 0 < rowSize n m := by
  have h := le_mul_rowSize n m hm
  rcases Nat.eq_zero_or_pos (rowSize n m) with hq | hq
  · rw [hq, Nat.mul_zero] at h
    omega
  · exact hq

/-- Reading back any in-grid cell of the rendered table returns the entry
the column-major fill loop wrote there. -/
theorem tableCell_layout (entries : List String) (maxCols r c : Nat)
    (hr : r < rowSize entries.length maxCols)
    (hc : c < colSize entries.length maxCols) :
    tableCell (layoutTable entries maxCols) r c =
      some (entries.get? (c * rowSize entries.length maxCols + r)) := by
  unfold tableCell layoutTable layoutCell
  simp [List.get?_eq_getElem?, List.getElem?_map, List.getElem?_range, hr, hc]

/-- Entry number `i` of the list lands at row `i % rowSize` and column
`i / rowSize` of the rendered grid. -/
theorem layout_lookup (entries : List String) (maxCols : Nat)
    (hm : 0 < maxCols) (i : Nat) (hi : i < entries.length) :
    tableCell (layoutTable entries maxCols)
      (i % rowSize entries.length maxCols)
      (i / rowSize entries.length maxCols) = some (entries.get? i) := by
  have hn : 0 < entries.length := Nat.lt_of_le_of_lt (Nat.zero_le _) hi
  have hq : 0 < rowSize entries.length maxCols := rowSize_pos _ _ hn hm
  have hr : i % rowSize entries.length maxCols < rowSize entries.length maxCols :=
    Nat.mod_lt _ hq
  have hle : entries.length ≤ maxCols * rowSize entries.length maxCols :=
    le_mul_rowSize _ _ hm
  have hcm : i / rowSize entries.length maxCols < maxCols :=
    (Nat.div_lt_iff_lt_mul hq).mpr (Nat.lt_of_lt_of_le hi hle)
  have hcn : i / rowSize entries.length maxCols < entries.length :=
    Nat.lt_of_le_of_lt (Nat.div_le_self i _) hi
  have hc : i / rowSize entries.length maxCols < colSize entries.length maxCols :=
    lt_min hcn hcm
  rw [tableCell_layout entries maxCols _ _ hr hc]
  congr 1
  congr 1
  rw [Nat.mul_comm]
  exact Nat.div_add_mod i _

/-! ## Claim C1 -/

/-- Claim C1, counterexample: the claim promises `false` for every
non-empty `v` passed as both current and target version once the existence
check passes, but at `v = "latest"` with one tag `v2.0` the target resolves
to `v2.0`, the existence check passes, and `isOutdated` returns `true`. -/
theorem isOutdated_latest_literal_self_cex :
    isOutdatedFromApi [⟨"refs/tags/v2.0"⟩] [] ("latest") ("latest") =
      IsOutdatedResult.ok true ∧ ("latest" : String) ≠ "" := by
  decide

/-- Claim C1 (amended): for every non-empty `v` other than the literal
string `latest`, calling `isOutdated` with current and target version both
equal to `v` returns `false` whenever `v` is present in the versions list,
i.e. whenever the existence check passes. -/
theorem isOutdated_same_nonlatest_version_not_outdated
    (latest : Option String) (versions : List String) (v : String)
    (hne : v ≠ "") (hnl : v ≠ "latest") (hmem : v ∈ versions) :
    isOutdated latest versions v v = IsOutdatedResult.ok false := by
  have hc : versions.contains v = true := by
    simpa using hmem
  simp [isOutdated, resolveTarget, truthy, optMem, hne, hnl, hc, hmem]

/-- Claim C1, witness at `v = "v1.0"`. -/
theorem isOutdated_same_nonlatest_version_not_outdated_wit :
    isOutdated (some "v1.0") ["v1.0"] ("v1.0") ("v1.0") = IsOutdatedResult.ok false :=
  isOutdated_same_nonlatest_version_not_outdated (some "v1.0") ["v1.0"] "v1.0"
    (by decide) (by decide) (by decide)

/-! ## Claim C2 -/

/-- Claim C2: for every entry list with more than 25 entries and every
positive `maxCols`, `printVersions` renders the column-major grid with
`rowSize` equal to the ceiling of `count / maxCols` and `colSize` equal to
`min count maxCols`; the entry at index `i` lands at row `i % rowSize` and
column `i / rowSize`; for 30 entries and `maxCols = 8` the grid is 4 by 8,
the last column holds exactly the two entries 28 and 29, and its two
trailing cells hold the absent value (JS `undefined`, here `none`), not a
blank string. -/
theorem printVersions_table_layout (entries : List String) (maxCols : Nat)
    (hlen : maxListSize < entries.length) (hm : 0 < maxCols) :
    (∀ (cv : Option String) (ind : Nat),
        printVersions entries cv maxCols ind =
          some (PrintLayout.table (layoutTable (markVersions entries cv) maxCols))) ∧
    (∀ i, i < entries.length →
        tableCell (layoutTable entries maxCols)
          (i % rowSize entries.length maxCols)
          (i / rowSize entries.length maxCols) = some (entries.get? i)) ∧
    (entries.length = 30 → maxCols = 8 →
        rowSize entries.length maxCols = 4 ∧
        colSize entries.length maxCols = 8 ∧
        (∀ r, r < 2 → tableCell (layoutTable entries maxCols) r 7 =
            some (entries.get? (28 + r)) ∧ entries.get? (28 + r) ≠ none) ∧
        tableCell (layoutTable entries maxCols) 2 7 = some none ∧
        tableCell (layoutTable entries maxCols) 3 7 = some none) := by
  refine ⟨?_, fun i hi => layout_lookup entries maxCols hm i hi, ?_⟩
  · intro cv ind
    have h0 : ¬(entries.length = 0) := by omega
    have hmk : (markVersions entries cv).length = entries.length := by
      simp [markVersions]
    rw [printVersions, if_neg h0, if_pos]
    rw [hmk]
    omega
  · intro h30 h8
    subst h8
    have hq : rowSize entries.length 8 = 4 := by rw [h30]; decide
    have hcs : colSize entries.length 8 = 8 := by rw [h30]; decide
    refine ⟨hq, hcs, ?_, ?_, ?_⟩
    · intro r hr
      have h1 := layout_lookup entries 8 (by omega) (28 + r) (by omega)
      have hmod : (28 + r) % rowSize entries.length 8 = r := by rw [hq]; omega
      have hdiv : (28 + r) / rowSize entries.length 8 = 7 := by rw [hq]; omega
      rw [hmod, hdiv] at h1
      refine ⟨h1, ?_⟩
      rw [Ne, List.get?_eq_none]
      omega
    · have h := tableCell_layout entries 8 2 7 (by omega) (by omega)
      rw [h, hq]
      have hend : entries.get? 30 = none := by
        rw [List.get?_eq_none]
        omega
      rw [hend]
    · have h := tableCell_layout entries 8 3 7 (by omega) (by omega)
      rw [h, hq]
      have hend : entries.get? 31 = none := by
        rw [List.get?_eq_none]
        omega
      rw [hend]

/-- Claim C2, witness on a concrete 30-entry list with `maxCols = 8`: cell
(2, 7) of the grid holds the absent value. -/
theorem printVersions_table_layout_wit :
    tableCell (layoutTable (List.replicate 30 ("v")) 8) 2 7 = some none :=
  ((printVersions_table_layout (List.replicate 30 ("v")) 8 (by decide)
      (by decide)).2.2 (by decide) rfl).2.2.2.1

/-! ## Claim C3 -/

/-- Claim C3, counterexample: for the input branches `main` (protected) and
`dev` (unprotected) the claim promises the branches field
`["main (Protected)", "dev"]`, but the template literal appends a space
after every branch name, so the unprotected entry is `"dev "` and the
claimed list is not the result. -/
theorem getVersions_branches_example_cex :
    (getVersions [] [⟨"main", true⟩, ⟨"dev", false⟩]).branches ≠
      ["main (Protected)", "dev"] := by
  decide

/-- Claim C3 (amended): `getVersions` sorts unprotected branches before
protected ones with a stable tie-break, annotates protected names with the
`(Protected)` marker and unprotected names with a trailing space, then
reverses the list, so the result is the reversed protected group followed
by the reversed unprotected group; for branches `main` (protected) and
`dev` (unprotected) the branches field is exactly
`["main (Protected)", "dev "]`, with a trailing space on the unprotected
entry. -/
theorem getVersions_branches_sorted_annotated_reversed (tags : List TagRef)
    (bs : List Branch) :
    (getVersions tags bs).branches =
        ((bs.filter (fun b => b.protected_)).map branchEntry).reverse ++
          ((bs.filter (fun b => !b.protected_)).map branchEntry).reverse ∧
    (∀ b : Branch, b.protected_ = true → branchEntry b = b.name ++ " (Protected)") ∧
    (∀ b : Branch, b.protected_ = false → branchEntry b = b.name ++ " ") ∧
    (getVersions [] [⟨"main", true⟩, ⟨"dev", false⟩]).branches =
      ["main (Protected)", "dev "] := by
  refine ⟨?_, fun b hb => branchEntry_protected b hb,
    fun b hb => branchEntry_unprotected b hb, by decide⟩
  simp [getVersions, branchNames, sortBranches, List.map_append, List.reverse_append]

/-- Claim C3, witness: the entry for the unprotected branch `dev`. -/
theorem getVersions_branches_sorted_annotated_reversed_wit :
    branchEntry ⟨"dev", false⟩ = "dev" ++ " " :=
  (getVersions_branches_sorted_annotated_reversed [] []).2.2.1 ⟨"dev", false⟩ rfl

/-! ## Claim C4 -/

/-- Claim C4: for every tag-refs response, the tags field of `getVersions`
has the same length as the response and equals the reverse of the API-order
list with the `refs/tags/` path stripped from every element; stripping a
ref that starts with `refs/tags/` leaves exactly the tag name. -/
theorem getVersions_tags_reverse_stripped (tags : List TagRef) (bs : List Branch) :
    (getVersions tags bs).tags.length = tags.length ∧
    (getVersions tags bs).tags = (tags.map (fun t => stripTagsPath t.ref)).reverse ∧
    (∀ s : String, stripTagsPath ("refs/tags/" ++ s) = s) := by
  refine ⟨?_, rfl, ?_⟩
  · simp [getVersions, tagNames]
  · intro s
    have h : ("refs/tags/" ++ s).data = tagsPathChars ++ s.data := by
      simp [tagsPathChars]
    have hlen : tagsPathChars.length = 10 := rfl
    rw [stripTagsPath, h, ← hlen, List.take_left, if_pos rfl, List.drop_left]

/-! ## Claim C5 -/

/-- Claim C5: `isOutdated` throws `ValidationError` if and only if the
resolved target version (the target itself, or `latest` when the target is
the literal `latest`) is a non-empty string that is not a member of the
versions list; an empty or absent resolved target bypasses the existence
check. -/
theorem isOutdated_validation_iff (latest : Option String) (versions : List String)
    (cv tv : String) :
    isOutdated latest versions cv tv = IsOutdatedResult.validationError ↔
      ∃ s, resolveTarget latest tv = some s ∧ s ≠ "" ∧ s ∉ versions := by
  unfold isOutdated
  cases htar : resolveTarget latest tv with
  | none =>
      simp only [htar, truthy, optMem]
      split_ifs <;> simp_all
  | some s =>
      by_cases hs : s = ""
      · subst hs
        simp only [htar, truthy, optMem]
        split_ifs <;> simp_all
      · by_cases hm : s ∈ versions
        · have hc : versions.contains s = true := by simpa using hm
          simp only [htar, truthy, optMem, hc]
          split_ifs <;> simp_all
        · have hc : versions.contains s = false := by simpa using hm
          simp only [htar, truthy, optMem, hc]
          split_ifs <;> simp_all

/-! ## Claim C6 -/

/-- Claim C6, counterexample: with no tags, `latest` is not the empty
string the claim (and the declared `latest: string` data model) describes,
but the absent value `undefined`, modelled as `none`. -/
theorem getVersions_no_tags_latest_not_empty_string_cex :
    (getVersions [] []).latest ≠ some "" := by
  decide

/-- Claim C6 (amended): `versions` is `tags` concatenated with `branches`,
duplicates between the two kept; `latest` is the head of `tags` when tags
exist and the absent value (`undefined`, not the empty string) when no tags
exist; a tag and a branch producing the same display name yields that name
twice in `versions`. -/
theorem getVersions_versions_concat_latest_head (tags : List TagRef)
    (bs : List Branch) :
    (getVersions tags bs).versions =
        (getVersions tags bs).tags ++ (getVersions tags bs).branches ∧
    (getVersions tags bs).latest = (getVersions tags bs).tags.head? ∧
    ((getVersions tags bs).tags = [] → (getVersions tags bs).latest = none) ∧
    (getVersions [⟨"refs/tags/dev "⟩] [⟨"dev", false⟩]).versions =
      ["dev ", "dev "] := by
  refine ⟨rfl, rfl, ?_, by decide⟩
  intro h
  simp only [getVersions] at h ⊢
  simp [h]

/-- Claim C6, witness: no tags at all gives an absent `latest`. -/
theorem getVersions_versions_concat_latest_head_wit :
    (getVersions [] []).latest = none :=
  (getVersions_versions_concat_latest_head [] []).2.2.1 rfl

/-! ## Claim C7 -/

/-- Claim C7, counterexample: the no-status failure and the structured
error body failure are not two distinguishable error kinds: both throw the
same generic `Error` class, and a body whose message and documentation URL
concatenate to the fixed no-status text produces an error identical to the
no-status one. -/
theorem gitFetch_error_collision_cex :
    gitFetch (List TagRef) 200
        (GitBody.errorPayload ("couldn" ++ apos ++ "t fetch versions - try again after")
          ("sometime")) =
      gitFetch (List TagRef) 0 (GitBody.payload []) := by
  decide

/-- Claim C7 (amended): `getVersions` fails with the generic `Error` class
and a fixed message when the HTTP call reports no status, and with the
generic `Error` class carrying the message and documentation URL of the
provider when the response body contains both fields; the two failures
share one error class, distinct from `ValidationError`, and are therefore
not distinguishable as kinds (only their messages differ, and those can
collide). -/
theorem gitFetch_error_modes (m d : String) (tb : GitBody (List TagRef))
    (bstat : Nat) (bb : GitBody (List Branch)) :
    getVersionsFetch 0 tb bstat bb =
        FetchOutcome.thrown ⟨ErrClass.genericError, fetchFailMsg⟩ ∧
    (∀ tstat : Nat, tstat ≠ 0 →
        getVersionsFetch tstat (GitBody.errorPayload m d) bstat bb =
          FetchOutcome.thrown ⟨ErrClass.genericError, m ++ " " ++ d⟩) ∧
    ErrClass.genericError ≠ ErrClass.validationError := by
  refine ⟨?_, ?_, by decide⟩
  · simp [getVersionsFetch, gitFetch]
  · intro tstat ht
    simp [getVersionsFetch, gitFetch, ht]

/-- Claim C7, witness: a structured error body at status 5. -/
theorem gitFetch_error_modes_wit :
    getVersionsFetch 5 (GitBody.errorPayload ("a") ("b")) 7 (GitBody.payload []) =
      FetchOutcome.thrown ⟨ErrClass.genericError, "a" ++ " " ++ "b"⟩ :=
  (gitFetch_error_modes "a" "b" (GitBody.payload []) 7 (GitBody.payload [])).2.1 5
    (by decide)

/-! ## Claim C8 -/

/-- Claim C8, counterexample: the bare unprotected branch name `latest`,
which is not a tag name, does not always make `isOutdated` throw: the
target `latest` is first resolved to the newest tag, the existence check
passes, and the call returns `true` instead of throwing. -/
theorem branch_named_latest_cex :
    ("latest" : String) ∉ (getVersions [⟨"refs/tags/v1"⟩] [⟨"latest", false⟩]).tags ∧
    isOutdatedFromApi [⟨"refs/tags/v1"⟩] [⟨"latest", false⟩] ("1.0") ("latest") =
      IsOutdatedResult.ok true := by
  decide

/-- Claim C8 (amended): every unprotected branch is stored in the branches
(and hence versions) list as its name followed by a trailing space, never
as the bare name; consequently `isOutdated` with the bare name as target
throws `ValidationError` whenever that name is non-empty, is not the
literal `latest`, is not a tag name, and does not itself end in a space or
a closing parenthesis (the two shapes branch entries take). -/
theorem branch_bare_name_never_passes_check (tags : List TagRef) (bs : List Branch)
    (b : Branch) (cv : String) (_hmem : b ∈ bs) (hb : b.protected_ = false) :
    branchEntry b = b.name ++ " " ∧
    (b.name ≠ "" → b.name ≠ "latest" → b.name ∉ tagNames tags →
      b.name.data.getLast? ≠ some ' ' → b.name.data.getLast? ≠ some ')' →
      isOutdatedFromApi tags bs cv b.name = IsOutdatedResult.validationError) := by
  refine ⟨branchEntry_unprotected b hb, ?_⟩
  intro h1 h2 h3 h4 h5
  have hnb : b.name ∉ branchNames bs := bare_name_not_mem_branchNames bs b.name h4 h5
  have hnv : b.name ∉ (getVersions tags bs).versions := by
    simp only [getVersions, List.mem_append]
    exact fun h => h.elim h3 hnb
  have hc : ((getVersions tags bs).versions).contains b.name = false := by
    simpa using hnv
  simp [isOutdatedFromApi, isOutdated, resolveTarget, truthy, optMem, h1, h2, hc]
  exact fun h => absurd h hnv

/-- Claim C8, witness: the unprotected branch `dev` next to the tag `v1`;
asking for the bare name `dev` throws. -/
theorem branch_bare_name_never_passes_check_wit :
    isOutdatedFromApi [⟨"refs/tags/v1"⟩] [⟨"dev", false⟩] ("1.0") ("dev") =
      IsOutdatedResult.validationError :=
  (branch_bare_name_never_passes_check [⟨"refs/tags/v1"⟩] [⟨"dev", false⟩]
      ⟨"dev", false⟩ "1.0" (by decide) rfl).2 (by decide) (by decide) (by decide)
      (by decide) (by decide)

/-! ## Claim C9 -/

/-- Claim C9: when the repository has no tags, `latest` is the absent value
(not a string), and `isOutdated` with target `latest` resolves the target
to that absent value, bypasses the existence check and both
already-installed checks, and returns `true` for every current version. -/
theorem getVersions_no_tags_latest_outdated (bs : List Branch) (cv : String) :
    (getVersions [] bs).latest = none ∧
      isOutdatedFromApi [] bs cv ("latest") = IsOutdatedResult.ok true := by
  constructor
  · rfl
  · simp [isOutdatedFromApi, getVersions, tagNames, isOutdated, resolveTarget,
      truthy, optMem]

/-! ## Claim C10 -/

/-- Claim C10, counterexample: with the force flag unset and a present but
empty current version, the action invokes `upgrade` without consulting
`isOutdated` (whose oracle here even answers, not outdated), because the
JS truthiness test on the current version treats the empty string like an
absent one; the claim says `isOutdated` is consulted whenever a current
version exists. -/
theorem upgradeAction_empty_version_cex :
    upgradeAction false (some "") (IsOutdatedResult.ok false) =
      { isOutdatedCalled := false, upgradeCalled := true } ∧
    (some "" : Option String) ≠ none := by
  decide

/-- Claim C10 (amended): the action invokes `upgrade` without calling
`isOutdated` whenever the force flag is set or the current version is
absent or empty (falsy); `isOutdated` is consulted exactly when force is
unset and a non-empty current version exists, and `upgrade` is then
invoked exactly when `isOutdated` returns `true`. -/
theorem upgradeAction_decision (force : Bool) (cv : Option String)
    (o : IsOutdatedResult) :
    ((force = true ∨ truthy cv = false) → upgradeAction force cv o = ⟨false, true⟩) ∧
    ((upgradeAction force cv o).isOutdatedCalled = true ↔
      (force = false ∧ truthy cv = true)) ∧
    (force = false → truthy cv = true →
      ((upgradeAction force cv o).upgradeCalled = true ↔
        o = IsOutdatedResult.ok true)) := by
  cases force <;> cases hcv : truthy cv <;> rcases o with _ | (_ | _) <;>
    simp [upgradeAction, hcv]

/-- Claim C10, witness: the force flag set skips everything and upgrades. -/
theorem upgradeAction_decision_wit :
    upgradeAction true none (IsOutdatedResult.ok false) = ⟨false, true⟩ :=
  (upgradeAction_decision true none (IsOutdatedResult.ok false)).1 (Or.inl rfl)

end GithubUpgrade
